import Mathlib

/-!
# SkyScripter — verification of the session-control spec against the code

Shallow embedding of the parts of the SkyScripter repository that the
frozen claims are about:

* `capture/batch_capture.py` — the imaging session loop, the SIGINT
  handler, and the meridian-flip timing (`get_time_to_flip`);
* `capture/auto_meridian_flip.py` — mount state classification
  (`get_mount_state`) and its call-site state naming;
* `sky_scripter/algorithms.py` — `align_to_object` and `auto_focus`;
* `sky_scripter/util.py` — the plate-solve / star-detect ports, modelled
  as oracles returning `Option` results (they drive external tools).

Machine floats are embedded as `ℚ`; external reads (mount coordinates,
clocks, measurement results) are oracle functions supplied as arguments.
-/

namespace SkyScripter

/-! ## Meridian-flip timing (`batch_capture.get_time_to_flip`) -/

/-- Pier side as reported by `IndiMount.get_pier_side`
(`"West" | "East" | "Unknown"`). -/
inductive PierSide where
  | East
  | West
  | Unknown
deriving DecidableEq, Repr

/-- The hour-angle computation of `get_time_to_flip`
(`batch_capture.py` lines 63–67): `ha = lst - ra`, and 24 is subtracted
only when the result exceeds 12.  Note the source has no corresponding
`ha += 24` branch for `ha ≤ -12`. -/
def computeHa (lst ra : ℚ) : ℚ :=
  if lst - ra > 12 then lst - ra - 24 else lst - ra

/-- The flip-countdown formula of `get_time_to_flip` as a function of the
already-computed hour angle (`batch_capture.py` lines 68–72): the
`pier_side == "East"` branch, with all other pier sides taking the `else`
branch. -/
def timeToFlipHa (pier : PierSide) (ha flipAngle : ℚ) : ℚ :=
  if pier = PierSide.East then
    (12 + flipAngle - ha) * 3600
  else
    max 0 ((flipAngle - ha) * 3600)

/-- `get_time_to_flip` (`batch_capture.py` lines 62–72), with the mount
reads `ra` (right ascension, hours) and `lst` (local sidereal time, hours)
and the configured `meridian_flip_angle` passed explicitly. -/
def get_time_to_flip (lst ra : ℚ) (pier : PierSide) (flipAngle : ℚ) : ℚ :=
  timeToFlipHa pier (computeHa lst ra) flipAngle

/-- `need_meridian_flip` (`batch_capture.py` lines 78–80): a flip is due
when the countdown is ≤ 0. -/
def need_meridian_flip (lst ra : ℚ) (pier : PierSide) (flipAngle : ℚ) : Bool :=
  get_time_to_flip lst ra pier flipAngle ≤ 0

/-- Modelled from the spec: the wrap of a real number into the interval
`(-12, 12]` by adding or subtracting multiples of 24 (the spec's
`ha = wrap(lst - ra, to (-12,12])`).  Used only to compare the source's
`computeHa` against the spec's words. -/
def wrapSpec (x : ℚ) : ℚ :=
  x - 24 * ⌈(x - 12) / 24⌉

theorem wrapSpec_mem (x : ℚ) : -12 < wrapSpec x ∧ wrapSpec x ≤ 12 := by
  unfold wrapSpec
  have h1 : (⌈(x - 12) / 24⌉ : ℚ) < (x - 12) / 24 + 1 := Int.ceil_lt_add_one _
  have h2 : (x - 12) / 24 ≤ (⌈(x - 12) / 24⌉ : ℚ) := Int.le_ceil _
  constructor <;> nlinarith

/-! ## Mount state classification (`auto_meridian_flip.get_mount_state`) -/

/-- A raw per-axis status: the list of `(key, value)` pairs parsed from
`indi_getprop` output by `ReadIndi`. -/
abbrev AxisStatus := List (String × String)

/-- The `goto_slew` flag of `get_mount_state`
(`auto_meridian_flip.py` lines 48–56): true when either axis carries a
`RAGoto=Ok` / `DEGoto=Ok` pair (the source's two `for … break` scans). -/
def gotoSlewFlag (raSt deSt : AxisStatus) : Bool :=
  raSt.any (fun p => p.1 == "RAGoto" && p.2 == "Ok") ||
  deSt.any (fun p => p.1 == "DEGoto" && p.2 == "Ok")

/-- The `tracking` flag (`auto_meridian_flip.py` lines 58–64): requires
`not goto_slew` and the RA axis carrying all of `RARunning=Ok`,
`RAGoto=Busy`, `RAHighspeed=Busy`. -/
def trackingFlag (raSt deSt : AxisStatus) : Bool :=
  !gotoSlewFlag raSt deSt &&
  raSt.contains ("RARunning", "Ok") &&
  raSt.contains ("RAGoto", "Busy") &&
  raSt.contains ("RAHighspeed", "Busy")

/-- The `manual_slew` flag (`auto_meridian_flip.py` lines 66–71): requires
`not goto_slew`, `not tracking`, and a `RARunning=Ok` or `DERunning=Ok`
pair. -/
def manualSlewFlag (raSt deSt : AxisStatus) : Bool :=
  !gotoSlewFlag raSt deSt && !trackingFlag raSt deSt &&
  (raSt.contains ("RARunning", "Ok") || deSt.contains ("DERunning", "Ok"))

/-- `get_mount_state` (`auto_meridian_flip.py` lines 43–74): returns the
triple `(manual_slew, goto_slew, tracking)`. -/
def get_mount_state (raSt deSt : AxisStatus) : Bool × Bool × Bool :=
  (manualSlewFlag raSt deSt, gotoSlewFlag raSt deSt, trackingFlag raSt deSt)

/-- The classified mount states of the spec's state set. -/
inductive MountState where
  | Idle
  | ManualSlew
  | GotoSlew
  | Tracking
deriving DecidableEq, Repr

/-- The call-site classification in `auto_meridian_flip.main`
(lines 152–160): `if manual_slew … elif goto_slew … elif tracking … else
Idle`, applied to the `get_mount_state` triple. -/
def classifyMountState (raSt deSt : AxisStatus) : MountState :=
  match get_mount_state raSt deSt with
  | (m, g, t) =>
    if m then MountState.ManualSlew
    else if g then MountState.GotoSlew
    else if t then MountState.Tracking
    else MountState.Idle

/-- Modelled from the spec: the classification rules of §4.1 applied in
order with first match winning — (1) a goto indication (`RAGoto=Ok` /
`DEGoto=Ok`) on either axis, (2) the RA axis simultaneously carrying the
running (`RARunning=Ok`), goto-not-busy (`RAGoto=Busy`, i.e. no goto in
progress) and highspeed-busy (`RAHighspeed=Busy`) indications, (3) a
running indication on either axis, (4) idle. -/
def specClassify (raSt deSt : AxisStatus) : MountState :=
  if raSt.any (fun p => p.1 == "RAGoto" && p.2 == "Ok") ||
     deSt.any (fun p => p.1 == "DEGoto" && p.2 == "Ok") then
    MountState.GotoSlew
  else if raSt.contains ("RARunning", "Ok") &&
          raSt.contains ("RAGoto", "Busy") &&
          raSt.contains ("RAHighspeed", "Busy") then
    MountState.Tracking
  else if raSt.contains ("RARunning", "Ok") || deSt.contains ("DERunning", "Ok") then
    MountState.ManualSlew
  else
    MountState.Idle

/-! ### Claims C4, C5, C6 -/

theorem timeToFlipHa_east (ha fa : ℚ) :
    timeToFlipHa PierSide.East ha fa = (12 + fa - ha) * 3600 := rfl

theorem timeToFlipHa_west (ha fa : ℚ) :
    timeToFlipHa PierSide.West ha fa = max 0 ((fa - ha) * 3600) := rfl

/-- C4: for every pier side in {East, West}, `flip_angle ≥ 0` and hour
angle `ha ∈ (-12, 12]`, the computed time-to-meridian-flip equals
`(12 + flip_angle − ha) × 3600` on the East side and
`max(0, (flip_angle − ha) × 3600)` otherwise; it is non-negative, depends
only on `(pier_side, ha, flip_angle)` (any mount reads producing the same
hour angle give the same countdown), and on the East side it strictly
decreases as `ha` increases. -/
theorem claim_C4_time_to_flip (pier : PierSide) (ha fa : ℚ)
    (hp : pier = PierSide.East ∨ pier = PierSide.West)
    (hfa : 0 ≤ fa) (h1 : -12 < ha) (h2 : ha ≤ 12) :
    (pier = PierSide.East → timeToFlipHa pier ha fa = (12 + fa - ha) * 3600) ∧
    (pier = PierSide.West → timeToFlipHa pier ha fa = max 0 ((fa - ha) * 3600)) ∧
    0 ≤ timeToFlipHa pier ha fa ∧
    (∀ lst ra, computeHa lst ra = ha →
      get_time_to_flip lst ra pier fa = timeToFlipHa pier ha fa) ∧
    (pier = PierSide.East → ∀ ha', ha < ha' → ha' ≤ 12 →
      timeToFlipHa pier ha' fa < timeToFlipHa pier ha fa) := by
  refine ⟨?_, ?_, ?_, ?_, ?_⟩
  · intro hE
    subst hE
    exact timeToFlipHa_east ha fa
  · intro hW
    subst hW
    exact timeToFlipHa_west ha fa
  · rcases hp with hE | hW
    · subst hE
      rw [timeToFlipHa_east]
      nlinarith
    · subst hW
      rw [timeToFlipHa_west]
      exact le_max_left 0 _
  · intro lst ra hha
    simp [get_time_to_flip, hha]
  · intro hE ha' hlt hle
    subst hE
    rw [timeToFlipHa_east, timeToFlipHa_east]
    nlinarith

/-- Witness for C4: the hypotheses hold at `pier = East`, `ha = 0`,
`fa = 1`, and the theorem applies there. -/
theorem claim_C4_time_to_flip_witness :
    ((PierSide.East = PierSide.East ∨ PierSide.East = PierSide.West) ∧
      (0 : ℚ) ≤ 1 ∧ (-12 : ℚ) < 0 ∧ (0 : ℚ) ≤ 12) ∧
    ((PierSide.East = PierSide.East →
        timeToFlipHa PierSide.East 0 1 = (12 + 1 - 0) * 3600) ∧
      (PierSide.East = PierSide.West →
        timeToFlipHa PierSide.East 0 1 = max 0 ((1 - 0) * 3600)) ∧
      0 ≤ timeToFlipHa PierSide.East 0 1 ∧
      (∀ lst ra, computeHa lst ra = 0 →
        get_time_to_flip lst ra PierSide.East 1 = timeToFlipHa PierSide.East 0 1) ∧
      (PierSide.East = PierSide.East → ∀ ha', 0 < ha' → ha' ≤ 12 →
        timeToFlipHa PierSide.East ha' 1 < timeToFlipHa PierSide.East 0 1)) :=
  ⟨⟨Or.inl rfl, by norm_num, by norm_num, by norm_num⟩,
    claim_C4_time_to_flip PierSide.East 0 1 (Or.inl rfl)
      (by norm_num) (by norm_num) (by norm_num)⟩

/-- C5 counterexample: at `lst = 0`, `ra = 23` (both in `[0, 24)`) the
code computes `ha = -23`, which is not in `(-12, 12]` and differs from the
spec's wrap of `lst − ra` into `(-12, 12]` (which is `1`): the `ha ≤ -12`
case is never wrapped upward. -/
theorem claim_C5_ha_wrap_counterexample :
    (0 : ℚ) ≤ 0 ∧ (0 : ℚ) < 24 ∧ (0 : ℚ) ≤ 23 ∧ (23 : ℚ) < 24 ∧
    computeHa 0 23 = -23 ∧
    ¬(-12 < computeHa 0 23 ∧ computeHa 0 23 ≤ 12) ∧
    wrapSpec (0 - 23) = 1 ∧
    computeHa 0 23 ≠ wrapSpec (0 - 23) := by
  have hceil : ⌈((0 : ℚ) - 23 - 12) / 24⌉ = -1 := by
    rw [Int.ceil_eq_iff]
    constructor <;> norm_num
  have hwrap : wrapSpec (0 - 23) = 1 := by
    rw [wrapSpec, hceil]
    norm_num
  refine ⟨by norm_num, by norm_num, by norm_num, by norm_num, ?_, ?_, hwrap, ?_⟩
  · norm_num [computeHa]
  · norm_num [computeHa]
  · rw [hwrap]
    norm_num [computeHa]

/-- C5 (amended): for `lst, ra ∈ [0, 24)` the hour angle computed by the
flip-timing code is `lst − ra` with 24 subtracted only when the difference
exceeds 12; the result lies in `(-24, 12]`, and it agrees with the spec's
wrap into `(-12, 12]` exactly when `lst − ra > -12` — when
`lst − ra ≤ -12` the value is left unwrapped at `lst − ra`. -/
theorem claim_C5_ha_wrap_amended (lst ra : ℚ)
    (h1 : 0 ≤ lst) (h2 : lst < 24) (h3 : 0 ≤ ra) (h4 : ra < 24) :
    (-24 < computeHa lst ra ∧ computeHa lst ra ≤ 12) ∧
    (-12 < lst - ra → computeHa lst ra = wrapSpec (lst - ra)) ∧
    (lst - ra ≤ -12 → computeHa lst ra = lst - ra) := by
  have hx1 : -24 < lst - ra := by linarith
  have hx2 : lst - ra < 24 := by linarith
  refine ⟨?_, ?_, ?_⟩
  · unfold computeHa
    split <;> constructor <;> linarith
  · intro hgt
    unfold computeHa wrapSpec
    split
    · rename_i hcase
      have hceil : ⌈(lst - ra - 12) / 24⌉ = 1 := by
        rw [Int.ceil_eq_iff]
        constructor
        · push_cast
          rw [lt_div_iff (by norm_num : (0 : ℚ) < 24)]
          linarith
        · push_cast
          rw [div_le_iff (by norm_num : (0 : ℚ) < 24)]
          linarith
      rw [hceil]
      push_cast
      ring
    · rename_i hcase
      push_neg at hcase
      have hceil : ⌈(lst - ra - 12) / 24⌉ = 0 := by
        rw [Int.ceil_eq_iff]
        constructor
        · push_cast
          rw [lt_div_iff (by norm_num : (0 : ℚ) < 24)]
          linarith
        · push_cast
          rw [div_le_iff (by norm_num : (0 : ℚ) < 24)]
          linarith
      rw [hceil]
      push_cast
      ring
  · intro hle
    unfold computeHa
    rw [if_neg (by simp only [not_lt]; linarith)]

/-- Witness for C5 (amended): the theorem applies at `lst = 1`, `ra = 2`. -/
theorem claim_C5_ha_wrap_amended_witness :
    ((0 : ℚ) ≤ 1 ∧ (1 : ℚ) < 24 ∧ (0 : ℚ) ≤ 2 ∧ (2 : ℚ) < 24) ∧
    ((-24 < computeHa 1 2 ∧ computeHa 1 2 ≤ 12) ∧
      (-12 < (1 : ℚ) - 2 → computeHa 1 2 = wrapSpec (1 - 2)) ∧
      ((1 : ℚ) - 2 ≤ -12 → computeHa 1 2 = 1 - 2)) :=
  ⟨⟨by norm_num, by norm_num, by norm_num, by norm_num⟩,
    claim_C5_ha_wrap_amended 1 2 (by norm_num) (by norm_num) (by norm_num)
      (by norm_num)⟩

/-- C6: for every pair of raw axis status tuples the classified mount
state equals the spec's four rules applied in order with first match
winning (goto on either axis → GotoSlew; else RA running + goto-not-busy
+ highspeed-busy → Tracking; else running on either axis → ManualSlew;
else Idle), and identical raw tuples always yield the identical
classified state. -/
theorem claim_C6_mount_state (raSt deSt raSt' deSt' : AxisStatus)
    (hra : raSt = raSt') (hde : deSt = deSt') :
    classifyMountState raSt deSt = specClassify raSt deSt ∧
    classifyMountState raSt deSt = classifyMountState raSt' deSt' := by
  subst hra hde
  refine ⟨?_, rfl⟩
  have hspec : specClassify raSt deSt =
      if gotoSlewFlag raSt deSt then MountState.GotoSlew
      else if raSt.contains ("RARunning", "Ok") &&
              raSt.contains ("RAGoto", "Busy") &&
              raSt.contains ("RAHighspeed", "Busy") then MountState.Tracking
      else if raSt.contains ("RARunning", "Ok") ||
              deSt.contains ("DERunning", "Ok") then MountState.ManualSlew
      else MountState.Idle := rfl
  have hclass : classifyMountState raSt deSt =
      if manualSlewFlag raSt deSt then MountState.ManualSlew
      else if gotoSlewFlag raSt deSt then MountState.GotoSlew
      else if trackingFlag raSt deSt then MountState.Tracking
      else MountState.Idle := rfl
  rw [hclass, hspec]
  simp only [manualSlewFlag, trackingFlag]
  rcases Bool.eq_false_or_eq_true (gotoSlewFlag raSt deSt) with hg | hg <;>
    rcases Bool.eq_false_or_eq_true (raSt.contains ("RARunning", "Ok")) with h1 | h1 <;>
      rcases Bool.eq_false_or_eq_true (raSt.contains ("RAGoto", "Busy")) with h2 | h2 <;>
        rcases Bool.eq_false_or_eq_true (raSt.contains ("RAHighspeed", "Busy")) with h3 | h3 <;>
          rcases Bool.eq_false_or_eq_true (deSt.contains ("DERunning", "Ok")) with h4 | h4 <;>
            simp only [hg, h1, h2, h3, h4] <;> rfl

/-- Witness for C6: the theorem applies to a concrete tracking-shaped raw
tuple. -/
theorem claim_C6_mount_state_witness :
    (([("RARunning", "Ok"), ("RAGoto", "Busy"), ("RAHighspeed", "Busy")] :
        AxisStatus) = [("RARunning", "Ok"), ("RAGoto", "Busy"), ("RAHighspeed", "Busy")] ∧
      ([] : AxisStatus) = []) ∧
    (classifyMountState
        [("RARunning", "Ok"), ("RAGoto", "Busy"), ("RAHighspeed", "Busy")] [] =
      specClassify
        [("RARunning", "Ok"), ("RAGoto", "Busy"), ("RAHighspeed", "Busy")] [] ∧
      classifyMountState
        [("RARunning", "Ok"), ("RAGoto", "Busy"), ("RAHighspeed", "Busy")] [] =
      classifyMountState
        [("RARunning", "Ok"), ("RAGoto", "Busy"), ("RAHighspeed", "Busy")] []) :=
  ⟨⟨rfl, rfl⟩,
    claim_C6_mount_state _ _ _ _ rfl rfl⟩

/-! ## The imaging session loop and SIGINT handling
(`batch_capture.main`, `signal_handler`)

The loop's external reads are oracles indexed by the number of completed
captures `n`: `alt n` is the altitude reading most recently made once `n`
captures are done (`alt 0` is the pre-loop read), `terminate n` is the
state of the signal-set flag as observed at that point, and `needFlip n` /
`focusDue n` are the outcomes of the meridian-flip and focus-interval
checks made before the capture that would be capture number `n`. -/

/-- Observable device/session events of the imaging loop. -/
inductive Ev where
  | changeFilter
  | flip
  | focus
  | dither
  | capture
  | park
deriving DecidableEq, Repr

/-- Oracles feeding the imaging loop. -/
structure ImagingEnv where
  alt : ℕ → ℚ
  terminate : ℕ → Bool
  needFlip : ℕ → Bool
  focusDue : ℕ → Bool

/-- The session configuration the loop consults: the per-filter repeat
counts of `capture_settings['sequences']`, `args.dither_period`,
`args.min_altitude`, `args.simulate`. -/
structure ImagingCfg where
  sequences : List ℕ
  ditherPeriod : ℕ
  minAltitude : ℚ
  simulate : Bool

/-- The per-exposure body of the innermost `for i in range(repeat)` loop
(`batch_capture.py` lines 501–522): meridian-flip check, focus-interval
check, dither check (`(i + 1) % dither_period == 0`), then the capture.
No termination or altitude check appears here in the source. -/
def expEvents (env : ImagingEnv) (cfg : ImagingCfg) (i n : ℕ) : List Ev :=
  (if env.needFlip n then [Ev.flip] else []) ++
  (if env.focusDue n then [Ev.focus] else []) ++
  (if (i + 1) % cfg.ditherPeriod = 0 then [Ev.dither] else []) ++
  [Ev.capture]

/-- The `for i in range(repeat)` loop: `r` exposures remain, `i` is the
next index, `n` captures are complete.  Returns the new capture count and
the emitted events. -/
def runRepeat (env : ImagingEnv) (cfg : ImagingCfg) :
    ℕ → ℕ → ℕ → ℕ × List Ev
  | 0, _, n => (n, [])
  | r + 1, i, n =>
    let evs := expEvents env cfg i n
    let rest := runRepeat env cfg r (i + 1) (n + 1)
    (rest.1, evs ++ rest.2)

/-- One pass of the `for seq in sequences` loop: filter change, then the
repeat loop, for each sequence in order. -/
def runPass (env : ImagingEnv) (cfg : ImagingCfg) :
    List ℕ → ℕ → ℕ × List Ev
  | [], n => (n, [])
  | rep :: seqs, n =>
    let r1 := runRepeat env cfg rep 0 n
    let r2 := runPass env cfg seqs r1.1
    (r2.1, (Ev.changeFilter :: r1.2) ++ r2.2)

/-- The outer `while (alt > args.min_altitude or args.simulate) and not
terminate` loop (`batch_capture.py` line 492).  `fuel` bounds the number
of loop iterations modelled (the claims hold for every bound). -/
def runLoop (env : ImagingEnv) (cfg : ImagingCfg) :
    ℕ → ℕ → ℕ × List Ev
  | 0, n => (n, [])
  | fuel + 1, n =>
    if (cfg.minAltitude < env.alt n ∨ cfg.simulate = true) ∧
        env.terminate n = false then
      let r1 := runPass env cfg cfg.sequences n
      let r2 := runLoop env cfg fuel r1.1
      (r2.1, r1.2 ++ r2.2)
    else (n, [])

/-- The imaging phase of `main` followed by its epilogue: after the while
loop exits (gracefully), the mount is parked (`mount.park()`,
`batch_capture.py` line 526). -/
def mainEvents (env : ImagingEnv) (cfg : ImagingCfg) (fuel : ℕ) : List Ev :=
  (runLoop env cfg fuel 0).2 ++ [Ev.park]

/-- State touched by `signal_handler` (`batch_capture.py` lines 260–268):
the module globals `terminate` and `terminate_count`, plus whether
`sys.exit(1)` has been reached (after which no further handler runs). -/
structure SigState where
  terminate : Bool
  terminateCount : ℕ
  exited : Bool
deriving DecidableEq, Repr

/-- Initial signal state: `terminate = False`, `terminate_count = 0`. -/
def sigInit : SigState := ⟨false, 0, false⟩

/-- `signal_handler`: sets `terminate`; calls `sys.exit(1)` only when
`terminate_count > 1` (i.e. on the third delivered signal); otherwise
increments `terminate_count` (printing a warning when it was already
positive). -/
def signal_handler (s : SigState) : SigState :=
  if s.exited then s
  else if s.terminateCount > 1 then
    { s with terminate := true, exited := true }
  else
    { s with terminate := true, terminateCount := s.terminateCount + 1 }

/-! ### Claims C1, C2 -/

theorem runRepeat_terminate_indep (env : ImagingEnv) (cfg : ImagingCfg)
    (t' : ℕ → Bool) : ∀ r j m,
    runRepeat { env with terminate := t' } cfg r j m = runRepeat env cfg r j m := by
  intro r
  induction r with
  | zero => intro j m; rfl
  | succ r ih =>
    intro j m
    simp only [runRepeat, expEvents, ih]

theorem runPass_terminate_indep (env : ImagingEnv) (cfg : ImagingCfg)
    (t' : ℕ → Bool) : ∀ seqs n,
    runPass { env with terminate := t' } cfg seqs n = runPass env cfg seqs n := by
  intro seqs
  induction seqs with
  | nil => intro n; rfl
  | cons rep rest ih =>
    intro n
    simp only [runPass, runRepeat_terminate_indep, ih]

/-- The concrete imaging environment of the C1 counterexample: altitude
always 90, flip/focus never due, and the termination flag set once one
capture has completed (i.e. during the first exposure's wait). -/
def c1Env : ImagingEnv :=
  { alt := fun _ => 90
    terminate := fun n => decide (1 ≤ n)
    needFlip := fun _ => false
    focusDue := fun _ => false }

/-- The concrete session plan of the C1 counterexample: one filter
sequence with `repeat = 2`, dither period 100, minimum altitude 0, no
simulation. -/
def c1Cfg : ImagingCfg :=
  { sequences := [2]
    ditherPeriod := 100
    minAltitude := 0
    simulate := false }

/-- C1 counterexample: with a two-exposure plan and the termination flag
raised during the first exposure (`c1Env.terminate 1 = true`), the loop
still starts and completes the second exposure — 2 captures occur, where
the claim's per-exposure termination check would allow at most 1.  The
source checks the flag only in the outer `while` head, once per pass over
the whole plan. -/
theorem claim_C1_checks_counterexample :
    c1Env.terminate 1 = true ∧
    (runLoop c1Env c1Cfg 3 0).1 = 2 ∧
    ¬(runLoop c1Env c1Cfg 3 0).1 ≤ 1 := by
  refine ⟨rfl, ?_, ?_⟩ <;> decide

/-- C1 (amended): the termination flag and the altitude are checked only
at the head of the outer imaging loop, once per pass over the complete
per-filter plan; before each exposure only the meridian-flip-due,
focus-interval-elapsed and dither-period-elapsed checks run, in this
order, followed by the capture.  A termination flag set during an
exposure wait truncates nothing — the events of a pass are entirely
independent of the flag — and the first loop-head evaluation that
observes the flag starts no further pass and no further exposure. -/
theorem claim_C1_checks_amended (env : ImagingEnv) (cfg : ImagingCfg)
    (t' : ℕ → Bool) (seqs : List ℕ) (i n fuel : ℕ)
    (hterm : env.terminate n = true) :
    runPass { env with terminate := t' } cfg seqs n = runPass env cfg seqs n ∧
    runLoop env cfg fuel n = (n, []) ∧
    expEvents env cfg i n =
      (if env.needFlip n then [Ev.flip] else []) ++
      (if env.focusDue n then [Ev.focus] else []) ++
      (if (i + 1) % cfg.ditherPeriod = 0 then [Ev.dither] else []) ++
      [Ev.capture] := by
  refine ⟨runPass_terminate_indep env cfg t' seqs n, ?_, rfl⟩
  · cases fuel with
    | zero => rfl
    | succ fuel =>
      simp only [runLoop]
      rw [if_neg]
      intro h
      rw [hterm] at h
      exact absurd h.2 (by simp)

/-- Witness for C1 (amended): the theorem applies in the counterexample
world at the point where the flag is up. -/
theorem claim_C1_checks_amended_witness :
    c1Env.terminate 2 = true ∧
    (runPass { c1Env with terminate := fun _ => false } c1Cfg [1] 2 =
        runPass c1Env c1Cfg [1] 2 ∧
      runLoop c1Env c1Cfg 5 2 = (2, []) ∧
      expEvents c1Env c1Cfg 0 2 =
        (if c1Env.needFlip 2 then [Ev.flip] else []) ++
        (if c1Env.focusDue 2 then [Ev.focus] else []) ++
        (if (0 + 1) % c1Cfg.ditherPeriod = 0 then [Ev.dither] else []) ++
        [Ev.capture]) :=
  ⟨rfl, claim_C1_checks_amended c1Env c1Cfg (fun _ => false) [1] 0 2 5 rfl⟩

/-- C2 counterexample: starting from the initial signal state, after two
delivered termination signals the process has **not** exited
(`terminate_count` merely reached 2 and a warning was printed); the claim
that a second signal forces an immediate exit is false on the code, which
exits only when `terminate_count > 1` already held on entry, i.e. on the
third signal. -/
theorem claim_C2_second_signal_counterexample :
    (signal_handler (signal_handler sigInit)).exited = false ∧
    (signal_handler (signal_handler sigInit)).terminate = true ∧
    (signal_handler (signal_handler sigInit)).terminateCount = 2 := by
  refine ⟨?_, ?_, ?_⟩ <;> decide

/-- C2 (amended): the first termination signal requests a graceful stop
(the flag is set, no exit, and the graceful path always parks the mount
as its final action before returning); a second signal still does not
force an exit — it warns that one more interrupt exits immediately; a
third signal received before the graceful stop completes forces the
immediate process exit that bypasses park-on-exit. -/
theorem claim_C2_signal_escalation_amended :
    (signal_handler sigInit).terminate = true ∧
    (signal_handler sigInit).exited = false ∧
    (signal_handler (signal_handler sigInit)).exited = false ∧
    (signal_handler (signal_handler (signal_handler sigInit))).exited = true ∧
    ∀ env cfg fuel, (mainEvents env cfg fuel).getLast? = some Ev.park := by
  refine ⟨rfl, rfl, rfl, rfl, ?_⟩
  intro env cfg fuel
  unfold mainEvents
  rw [List.getLast?_concat]

/-! ## The alignment convergence loop (`algorithms.align_to_object`)

The plate solver is an oracle `solve : ℕ → Option (ℚ × ℚ)` giving
`run_plate_solve_astap`'s result for the exposure of iteration `k`
(1-based); `none` is the `(None, None)` pair it returns when no solution
is found in the ASTAP output, which makes the subsequent
`compute_error` arithmetic raise and so aborts `align_to_object` with an
uncaught exception — embedded as `Except.error ()`. -/

/-- The solver oracle of one alignment run. -/
structure AlignEnv where
  solve : ℕ → Option (ℚ × ℚ)

/-- The square of `compute_error` (`algorithms.py` lines 27–31):
`ra_error = |ra_target − ra| / 24 * 360 * 3600` arcseconds,
`dec_error = |dec_target − dec| * 3600` arcseconds, combined by
`sqrt(ra_error² + dec_error²)`.  The loop uses the error only in the
comparison `error < threshold`, which for a non-negative threshold is
equivalent to `errSq < threshold²`; the embedding stays in `ℚ` by using
the squared form. -/
def errSq (raT decT ra dec : ℚ) : ℚ :=
  (|raT - ra| / 24 * 360 * 3600) ^ 2 + (|decT - dec| * 3600) ^ 2

/-- Outcome of one `align_to_object` run: how many `mount.goto` commands
and how many plate-solve invocations were issued, and the result —
`Except.ok true`/`Except.ok false` for the function's `True`/`False`
returns, `Except.error ()` for the exception raised after a failed
solve. -/
structure AlignRes where
  gotos : ℕ
  solves : ℕ
  out : Except Unit Bool
deriving Repr

/-- The `while iteration < max_iterations` loop of `align_to_object`
(`algorithms.py` lines 38–74): `iter` iterations are complete and `fuel =
max_iterations − iter` remain.  Each iteration goes goto → capture →
solve → sync → error check; when the loop exits, the source returns
`False` (`iteration == max_iterations` there). -/
def alignAux (env : AlignEnv) (raT decT thr : ℚ) : ℕ → ℕ → AlignRes
  | _, 0 => ⟨0, 0, Except.ok false⟩
  | iter, fuel + 1 =>
    match env.solve (iter + 1) with
    | none => ⟨1, 1, Except.error ()⟩
    | some (ra, dec) =>
      if errSq raT decT ra dec < thr ^ 2 then ⟨1, 1, Except.ok true⟩
      else
        let r := alignAux env raT decT thr (iter + 1) fuel
        ⟨r.gotos + 1, r.solves + 1, r.out⟩

/-- `align_to_object(mount, camera, ra_target, dec_target, threshold,
max_iterations)`, with devices abstracted into the solver oracle. -/
def align_to_object (env : AlignEnv) (raT decT thr : ℚ) (maxIter : ℕ) :
    AlignRes :=
  alignAux env raT decT thr 0 maxIter

/-! ### Claims C3, C10 -/

theorem alignAux_gotos_le (env : AlignEnv) (raT decT thr : ℚ) :
    ∀ fuel iter, (alignAux env raT decT thr iter fuel).gotos ≤ fuel ∧
      (alignAux env raT decT thr iter fuel).solves ≤ fuel := by
  intro fuel
  induction fuel with
  | zero => intro iter; exact ⟨Nat.le_refl 0, Nat.le_refl 0⟩
  | succ fuel ih =>
    intro iter
    cases hs : env.solve (iter + 1) with
    | none =>
      simp only [alignAux, hs]
      exact ⟨Nat.succ_le_succ (Nat.zero_le _), Nat.succ_le_succ (Nat.zero_le _)⟩
    | some p =>
      obtain ⟨ra, dec⟩ := p
      by_cases hb : errSq raT decT ra dec < thr ^ 2
      · simp only [alignAux, hs, if_pos hb]
        exact ⟨Nat.succ_le_succ (Nat.zero_le _), Nat.succ_le_succ (Nat.zero_le _)⟩
      · simp only [alignAux, hs, if_neg hb]
        exact ⟨Nat.succ_le_succ (ih (iter + 1)).1,
               Nat.succ_le_succ (ih (iter + 1)).2⟩

theorem alignAux_all_above (env : AlignEnv) (raT decT thr : ℚ) :
    ∀ fuel iter,
    (∀ k, iter < k → k ≤ iter + fuel →
      ∃ ra dec, env.solve k = some (ra, dec) ∧
        ¬ errSq raT decT ra dec < thr ^ 2) →
    (alignAux env raT decT thr iter fuel).out = Except.ok false := by
  intro fuel
  induction fuel with
  | zero => intro iter _; rfl
  | succ fuel ih =>
    intro iter h
    obtain ⟨ra, dec, hs, hb⟩ := h (iter + 1) (Nat.lt_succ_self iter)
      (by omega)
    simp only [alignAux, hs, if_neg hb]
    exact ih (iter + 1) (fun k hk1 hk2 => h k (by omega) (by omega))

/-- C10: for every `max_iterations ≥ 1`, the alignment loop terminates
after at most `max_iterations` iterations (the embedding is structurally
bounded by `max_iterations` and issues at most that many solves), it
commands `goto` at most `max_iterations` times, and when every iteration's
solved coordinate stays at or above the error threshold it returns the
failure value `False` once `iteration == max_iterations`. -/
theorem claim_C10_align_bounded (env : AlignEnv) (raT decT thr : ℚ)
    (maxIter : ℕ) (hmax : 1 ≤ maxIter) :
    (align_to_object env raT decT thr maxIter).gotos ≤ maxIter ∧
    (align_to_object env raT decT thr maxIter).solves ≤ maxIter ∧
    ((∀ k, 1 ≤ k → k ≤ maxIter →
        ∃ ra dec, env.solve k = some (ra, dec) ∧
          ¬ errSq raT decT ra dec < thr ^ 2) →
      (align_to_object env raT decT thr maxIter).out = Except.ok false) := by
  refine ⟨(alignAux_gotos_le env raT decT thr maxIter 0).1,
          (alignAux_gotos_le env raT decT thr maxIter 0).2, ?_⟩
  intro h
  exact alignAux_all_above env raT decT thr maxIter 0
    (fun k hk1 hk2 => h k hk1 (by omega))

/-- Witness for C10: a run whose solver always lands 1 hour / 10 degrees
off the target never meets threshold 1 and fails after its 3
iterations. -/
theorem claim_C10_align_bounded_witness :
    1 ≤ 3 ∧
    ((align_to_object ⟨fun _ => some (1, 10)⟩ 0 0 1 3).gotos ≤ 3 ∧
      (align_to_object ⟨fun _ => some (1, 10)⟩ 0 0 1 3).solves ≤ 3 ∧
      ((∀ k, 1 ≤ k → k ≤ 3 →
          ∃ ra dec, (⟨fun _ => some (1, 10)⟩ : AlignEnv).solve k = some (ra, dec) ∧
            ¬ errSq 0 0 ra dec < 1 ^ 2) →
        (align_to_object ⟨fun _ => some (1, 10)⟩ 0 0 1 3).out = Except.ok false)) :=
  ⟨by norm_num, claim_C10_align_bounded ⟨fun _ => some (1, 10)⟩ 0 0 1 3 (by norm_num)⟩

theorem alignAux_solve_failure (env : AlignEnv) (raT decT thr : ℚ) (k : ℕ) :
    ∀ fuel iter, iter < k → k ≤ iter + fuel →
    env.solve k = none →
    (∀ j, iter < j → j < k →
      ∃ ra dec, env.solve j = some (ra, dec) ∧
        ¬ errSq raT decT ra dec < thr ^ 2) →
    alignAux env raT decT thr iter fuel = ⟨k - iter, k - iter, Except.error ()⟩ := by
  intro fuel
  induction fuel with
  | zero => intro iter h1 h2; omega
  | succ fuel ih =>
    intro iter h1 h2 hfail hprev
    by_cases hk : iter + 1 = k
    · subst hk
      simp only [alignAux, hfail]
      congr 1 <;> omega
    · obtain ⟨ra, dec, hs, hb⟩ := hprev (iter + 1) (Nat.lt_succ_self iter)
        (by omega)
      simp only [alignAux, hs, if_neg hb]
      rw [ih (iter + 1) (by omega) (by omega) hfail
        (fun j hj1 hj2 => hprev j (by omega) hj2)]
      have : k - iter = (k - (iter + 1)) + 1 := by omega
      rw [this]

/-- C3: if the plate solve of alignment iteration `k` fails (after the
earlier iterations solved but stayed at or above the threshold), the
whole alignment aborts as failed: the run's result is the propagated
error, exactly `k` solves were attempted (the failing solve is not
retried) and exactly `k` gotos were commanded (the iteration does not
continue past the failure). -/
theorem claim_C3_solve_failure_aborts (env : AlignEnv) (raT decT thr : ℚ)
    (maxIter k : ℕ) (hk1 : 1 ≤ k) (hk2 : k ≤ maxIter)
    (hfail : env.solve k = none)
    (hprev : ∀ j, 1 ≤ j → j < k →
      ∃ ra dec, env.solve j = some (ra, dec) ∧
        ¬ errSq raT decT ra dec < thr ^ 2) :
    (align_to_object env raT decT thr maxIter).out = Except.error () ∧
    (align_to_object env raT decT thr maxIter).solves = k ∧
    (align_to_object env raT decT thr maxIter).gotos = k := by
  have h := alignAux_solve_failure env raT decT thr k maxIter 0
    (by omega) (by omega) hfail (fun j hj1 hj2 => hprev j (by omega) hj2)
  unfold align_to_object
  rw [h]
  refine ⟨rfl, ?_, ?_⟩ <;> show k - 0 = k <;> omega

/-- Witness for C3: a solver that fails on the very first exposure aborts
a 10-iteration alignment with one goto and one solve. -/
theorem claim_C3_solve_failure_aborts_witness :
    1 ≤ 1 ∧ 1 ≤ 10 ∧ (⟨fun _ => none⟩ : AlignEnv).solve 1 = none ∧
    ((align_to_object ⟨fun _ => none⟩ 5 5 30 10).out = Except.error () ∧
      (align_to_object ⟨fun _ => none⟩ 5 5 30 10).solves = 1 ∧
      (align_to_object ⟨fun _ => none⟩ 5 5 30 10).gotos = 1) :=
  ⟨by norm_num, by norm_num, rfl,
    claim_C3_solve_failure_aborts ⟨fun _ => none⟩ 5 5 30 10 1
      (by norm_num) (by norm_num) rfl (fun j hj1 hj2 => absurd (lt_of_le_of_lt hj1 hj2) (by norm_num))⟩

/-! ## The autofocus procedure (`algorithms.auto_focus`)

`measure_stars` (capture + `run_star_detect_siril`) is an oracle
`measure : ℤ → Option ℕ × Option ℚ` giving the (star count, FWHM) read
while the focuser sits at a given position; `none` components are the
`None` values the star detector returns when it finds nothing. -/

/-- Sum of `x ^ k` over the sample x-coordinates. -/
def powSum (L : List (ℚ × ℚ)) (k : ℕ) : ℚ :=
  (L.map (fun p => p.1 ^ k)).sum

/-- Sum of `x ^ k * y` over the samples. -/
def momSum (L : List (ℚ × ℚ)) (k : ℕ) : ℚ :=
  (L.map (fun p => p.1 ^ k * p.2)).sum

/-- Determinant of a 3×3 matrix given row-major. -/
def det3 (m00 m01 m02 m10 m11 m12 m20 m21 m22 : ℚ) : ℚ :=
  m00 * (m11 * m22 - m12 * m21) - m01 * (m10 * m22 - m12 * m20) +
    m02 * (m10 * m21 - m11 * m20)

/-- Determinant of the normal matrix of the degree-2 least-squares
system. -/
def normalDet (L : List (ℚ × ℚ)) : ℚ :=
  det3 (powSum L 4) (powSum L 3) (powSum L 2)
       (powSum L 3) (powSum L 2) (powSum L 1)
       (powSum L 2) (powSum L 1) (powSum L 0)

/-- Model of `np.polyfit(X, Y, 2)` on its non-degenerate inputs: the
least-squares quadratic fit, obtained by solving the normal equations by
Cramer's rule; the coefficients come highest degree first,
`(p[0], p[1], p[2]) = (a, b, c)` for `a·x² + b·x + c`, as the source
indexes them.  On a rank-deficient input `numpy` merely warns and
returns the minimum-norm least-squares solution; that behaviour is not
modelled — the singular case is embedded as `none`, and every claim,
witness and counterexample below stays in the non-singular region where
this model is faithful. -/
def polyfit2 (L : List (ℚ × ℚ)) : Option (ℚ × ℚ × ℚ) :=
  if normalDet L = 0 then none
  else some
    (det3 (momSum L 2) (powSum L 3) (powSum L 2)
          (momSum L 1) (powSum L 2) (powSum L 1)
          (momSum L 0) (powSum L 1) (powSum L 0) / normalDet L,
     det3 (powSum L 4) (momSum L 2) (powSum L 2)
          (powSum L 3) (momSum L 1) (powSum L 1)
          (powSum L 2) (momSum L 0) (powSum L 0) / normalDet L,
     det3 (powSum L 4) (powSum L 3) (momSum L 2)
          (powSum L 3) (powSum L 2) (momSum L 1)
          (powSum L 2) (powSum L 1) (momSum L 0) / normalDet L)

/-- `np.polyval` for the fitted quadratic. -/
def polyval2 (a b c x : ℚ) : ℚ := a * x ^ 2 + b * x + c

/-- Python's `int()` on a rational: truncation toward zero. -/
def pyInt (q : ℚ) : ℤ :=
  if q < 0 then -(⌊-q⌋) else ⌊q⌋

/-- The focus test points: `range(focus_min, focus_max + 1, focus_step)`
for a positive step (the only case the callers and claims exercise; a
zero step raises in Python and a negative one yields no ascending
points).  The source re-sorts the list each iteration and pops the front,
which for this ascending list is the identity. -/
def focusTestPoints (fmin fmax step : ℤ) : List ℤ :=
  if 0 < step then
    (List.range (((fmax + 1 - fmin).toNat + step.toNat - 1) / step.toNat)).map
      (fun (i : ℕ) => fmin + step * (i : ℤ))
  else []

/-- The sweep accumulator of `auto_focus` (`algorithms.py` lines
111–127): `focus_results`, and the running sampled minimum
(`min_fwhm` initialised to 100, `focus_at_min_fwhm` to `focus_min`). -/
structure SweepSt where
  results : List (ℤ × ℕ × ℚ)
  min_fwhm : ℚ
  focus_at_min_fwhm : ℤ
deriving Repr

/-- One iteration of the sweep loop at test point `f`: measure, and only
when both star count and FWHM are non-`None`, append a sample and update
the running minimum. -/
def sweepStep (measure : ℤ → Option ℕ × Option ℚ) (st : SweepSt) (f : ℤ) :
    SweepSt :=
  match measure f with
  | (some ns, some fw) =>
    let st1 : SweepSt := { st with results := st.results ++ [(f, ns, fw)] }
    if fw < st1.min_fwhm then
      { st1 with min_fwhm := fw, focus_at_min_fwhm := f }
    else st1
  | _ => st

/-- The whole sweep loop over the test points. -/
def sweepRun (measure : ℤ → Option ℕ × Option ℚ) (pts : List ℤ)
    (fmin : ℤ) : SweepSt :=
  pts.foldl (sweepStep measure) ⟨[], 100, fmin⟩

/-- The fit stage of `auto_focus` (`algorithms.py` lines 142–158): fit a
parabola to the recorded samples, take `minima = -p[1] / (2 * p[0])` and
`best_focus = int(minima)`; if `p[0] ≤ 0` fall back to
`focus_at_min_fwhm` (and leave `min_fwhm` at the sampled minimum),
otherwise the returned `focus_at_min_fwhm` is `int(minima)` and
`min_fwhm` is the fitted value at the vertex.  Returns the commanded /
returned position and the returned FWHM value. -/
def focusFitStage (results : List (ℤ × ℕ × ℚ)) (sweep_min_fwhm : ℚ)
    (focus_at_min : ℤ) : ℤ × ℚ :=
  match polyfit2 (results.map (fun r => ((r.1 : ℚ), r.2.2))) with
  -- placeholder for polyfit2's unmodelled singular case; never evaluated
  -- by the claims, whose runs all have a non-singular normal matrix
  | none => (focus_at_min, sweep_min_fwhm)
  | some (a, b, c) =>
    if a ≤ 0 then (focus_at_min, sweep_min_fwhm)
    else (pyInt (-b / (2 * a)), polyval2 a b c (-b / (2 * a)))

/-- Focuser / camera events of one `auto_focus` run. -/
inductive FEv where
  | setFocus (p : ℤ)
  | measure (p : ℤ)
deriving DecidableEq, Repr

/-- `auto_focus(focuser, camera, focus_min, focus_max, focus_step,
backlash)` (`algorithms.py` lines 88–177): initial measurement at the
current position; move to `focus_min − backlash` and re-measure, aborting
(the source's `return None, None, None`) when that far-point FWHM is
strictly below the initial FWHM; otherwise sweep all test points, fit,
drive the focuser through the backlash pre-position to the chosen
position, and return it with the samples.  The result is `none` for the
early aborts and `some (position, fwhm, samples)` otherwise. -/
def auto_focus (measure : ℤ → Option ℕ × Option ℚ)
    (initial_focus fmin fmax step backlash : ℤ) :
    List FEv × Option (ℤ × ℚ × List (ℤ × ℕ × ℚ)) :=
  match (measure initial_focus).2 with
  | none => ([FEv.measure initial_focus], none)
  | some initial_fwhm =>
    let pre := fmin - backlash
    let t1 : List FEv :=
      [FEv.measure initial_focus, FEv.setFocus pre, FEv.measure pre]
    let abort : Bool :=
      match (measure pre).2 with
      | some v => decide (v < initial_fwhm)
      | none => false
    if abort then (t1, none)
    else
      let pts := focusTestPoints fmin fmax step
      let st := sweepRun measure pts fmin
      let fit := focusFitStage st.results st.min_fwhm st.focus_at_min_fwhm
      (t1 ++ pts.flatMap (fun f => [FEv.setFocus f, FEv.measure f]) ++
        [FEv.setFocus pre, FEv.setFocus fit.1],
       some (fit.1, fit.2, st.results))

/-! ### Helper lemmas for the autofocus claims -/

/-- The samples lie exactly on the quadratic `a·x² + b·x + c`. -/
def onCurve (L : List (ℚ × ℚ)) (a b c : ℚ) : Prop :=
  ∀ p ∈ L, p.2 = a * p.1 ^ 2 + b * p.1 + c

theorem momSum_cons (p : ℚ × ℚ) (t : List (ℚ × ℚ)) (k : ℕ) :
    momSum (p :: t) k = p.1 ^ k * p.2 + momSum t k := by
  simp [momSum]

theorem powSum_cons (p : ℚ × ℚ) (t : List (ℚ × ℚ)) (k : ℕ) :
    powSum (p :: t) k = p.1 ^ k + powSum t k := by
  simp [powSum]

theorem momSum_onCurve (a b c : ℚ) : ∀ (L : List (ℚ × ℚ)) (k : ℕ),
    onCurve L a b c →
    momSum L k = a * powSum L (k + 2) + b * powSum L (k + 1) + c * powSum L k := by
  intro L
  induction L with
  | nil => intro k _; simp [momSum, powSum]
  | cons p t ih =>
    intro k h
    have hp := h p (List.mem_cons_self p t)
    have ht : onCurve t a b c := fun q hq => h q (List.mem_cons_of_mem p hq)
    rw [momSum_cons, powSum_cons, powSum_cons, powSum_cons, ih k ht, hp]
    ring

/-- On exactly-quadratic samples with a non-singular normal matrix the
least-squares fit recovers the generating coefficients. -/
theorem polyfit2_exact (L : List (ℚ × ℚ)) (a b c : ℚ)
    (h : onCurve L a b c) (hD : normalDet L ≠ 0) :
    polyfit2 L = some (a, b, c) := by
  have h2 := momSum_onCurve a b c L 2 h
  have h1 := momSum_onCurve a b c L 1 h
  have h0 := momSum_onCurve a b c L 0 h
  unfold polyfit2
  rw [if_neg hD]
  have ea : det3 (momSum L 2) (powSum L 3) (powSum L 2)
      (momSum L 1) (powSum L 2) (powSum L 1)
      (momSum L 0) (powSum L 1) (powSum L 0) = a * normalDet L := by
    rw [h2, h1, h0]
    unfold normalDet det3
    ring
  have eb : det3 (powSum L 4) (momSum L 2) (powSum L 2)
      (powSum L 3) (momSum L 1) (powSum L 1)
      (powSum L 2) (momSum L 0) (powSum L 0) = b * normalDet L := by
    rw [h2, h1, h0]
    unfold normalDet det3
    ring
  have ec : det3 (powSum L 4) (powSum L 3) (momSum L 2)
      (powSum L 3) (powSum L 2) (momSum L 1)
      (powSum L 2) (powSum L 1) (momSum L 0) = c * normalDet L := by
    rw [h2, h1, h0]
    unfold normalDet det3
    ring
  rw [ea, eb, ec, mul_div_cancel_right₀ a hD, mul_div_cancel_right₀ b hD,
    mul_div_cancel_right₀ c hD]

/-- Truncation toward zero and rounding differ by at most one. -/
theorem pyInt_round_dist (q : ℚ) : |pyInt q - round q| ≤ 1 := by
  have hfr : ⌊q⌋ ≤ round q := by
    rw [round_eq]
    exact Int.floor_le_floor (by linarith)
  have hrf : round q ≤ ⌊q⌋ + 1 := by
    rw [round_eq]
    have h := Int.floor_le_floor (show q + 1 / 2 ≤ q + (1 : ℤ) by push_cast; linarith)
    rwa [Int.floor_add_int] at h
  have hcf : ⌈q⌉ ≤ ⌊q⌋ + 1 := Int.ceil_le_floor_add_one q
  have hfc : ⌊q⌋ ≤ ⌈q⌉ := Int.floor_le_ceil q
  have hpi : pyInt q = ⌊q⌋ ∨ pyInt q = ⌈q⌉ := by
    unfold pyInt
    split
    · right
      rw [Int.floor_neg, neg_neg]
    · left
      rfl
  rcases hpi with h | h <;> rw [h, abs_le] <;> constructor <;> omega

/-- Every sweep test point lies at or above `focus_min`. -/
theorem focusTestPoints_ge (fmin fmax step p : ℤ)
    (hp : p ∈ focusTestPoints fmin fmax step) : fmin ≤ p := by
  unfold focusTestPoints at hp
  split at hp
  · obtain ⟨i, _, rfl⟩ := List.mem_map.mp hp
    have hs : (0 : ℤ) ≤ step := le_of_lt (by assumption)
    have hi : (0 : ℤ) ≤ step * (i : ℤ) :=
      mul_nonneg hs (by exact_mod_cast Nat.zero_le i)
    linarith
  · cases hp

/-- The sweep records exactly the measurements whose star count and FWHM
are both non-`None`, in sweep order. -/
theorem sweepRun_results_aux (measure : ℤ → Option ℕ × Option ℚ) :
    ∀ (pts : List ℤ) (st : SweepSt),
    (pts.foldl (sweepStep measure) st).results =
      st.results ++ pts.filterMap (fun f =>
        match measure f with
        | (some ns, some fw) => some (f, ns, fw)
        | _ => none) := by
  intro pts
  induction pts with
  | nil => intro st; simp
  | cons f rest ih =>
    intro st
    rw [List.foldl_cons, List.filterMap_cons, ih (sweepStep measure st f)]
    cases hm : measure f with
    | mk mns mfw =>
      cases mns with
      | none =>
        cases mfw <;> simp [sweepStep, hm]
      | some ns =>
        cases mfw with
        | none => simp [sweepStep, hm]
        | some fw =>
          by_cases hlt : fw < st.min_fwhm <;>
            simp [sweepStep, hm, hlt, List.append_assoc]

/-- When the initial measurement succeeds and the pre-position FWHM is
not below the initial FWHM, `auto_focus` runs the whole sweep and fit. -/
theorem auto_focus_no_abort (measure : ℤ → Option ℕ × Option ℚ)
    (initial_focus fmin fmax step backlash : ℤ) (f0 : ℚ)
    (h0 : (measure initial_focus).2 = some f0)
    (hnb : ∀ v, (measure (fmin - backlash)).2 = some v → ¬ v < f0) :
    auto_focus measure initial_focus fmin fmax step backlash =
      ([FEv.measure initial_focus, FEv.setFocus (fmin - backlash),
        FEv.measure (fmin - backlash)] ++
        (focusTestPoints fmin fmax step).flatMap
          (fun f => [FEv.setFocus f, FEv.measure f]) ++
        [FEv.setFocus (fmin - backlash),
          FEv.setFocus (focusFitStage
            (sweepRun measure (focusTestPoints fmin fmax step) fmin).results
            (sweepRun measure (focusTestPoints fmin fmax step) fmin).min_fwhm
            (sweepRun measure (focusTestPoints fmin fmax step) fmin).focus_at_min_fwhm).1],
       some ((focusFitStage
            (sweepRun measure (focusTestPoints fmin fmax step) fmin).results
            (sweepRun measure (focusTestPoints fmin fmax step) fmin).min_fwhm
            (sweepRun measure (focusTestPoints fmin fmax step) fmin).focus_at_min_fwhm).1,
          (focusFitStage
            (sweepRun measure (focusTestPoints fmin fmax step) fmin).results
            (sweepRun measure (focusTestPoints fmin fmax step) fmin).min_fwhm
            (sweepRun measure (focusTestPoints fmin fmax step) fmin).focus_at_min_fwhm).2,
          (sweepRun measure (focusTestPoints fmin fmax step) fmin).results)) := by
  have habort : (match (measure (fmin - backlash)).2 with
      | some v => decide (v < f0)
      | none => false) = false := by
    cases hm : (measure (fmin - backlash)).2 with
    | none => rfl
    | some v => simp only [decide_eq_false (hnb v hm)]
  unfold auto_focus
  rw [h0]
  simp only [habort]
  rw [if_neg (by simp)]

/-! ### Claims C7, C8, C9 -/

/-- C7: the fit stage fits a least-squares quadratic over the valid
samples; when the leading coefficient is positive the position commanded
and returned is the vertex `-b / (2a)` converted to integer, which for
samples generated from a known quadratic with `a > 0` (and a
non-degenerate sample set) is within one sample step of
`round(-b / (2a))`; when the fitted leading coefficient is ≤ 0, the
procedure falls back to the sampled position with minimum observed
FWHM. -/
theorem claim_C7_focus_fit (results resultsDown : List (ℤ × ℕ × ℚ))
    (a b c aD bD cD : ℚ) (step : ℤ) (mn mnD : ℚ) (pm pmD : ℤ)
    (hcurve : onCurve (results.map (fun r => ((r.1 : ℚ), r.2.2))) a b c)
    (ha : 0 < a)
    (hD : normalDet (results.map (fun r => ((r.1 : ℚ), r.2.2))) ≠ 0)
    (hstep : 1 ≤ step)
    (hfitD : polyfit2 (resultsDown.map (fun r => ((r.1 : ℚ), r.2.2))) =
      some (aD, bD, cD))
    (haD : aD ≤ 0) :
    (focusFitStage results mn pm).1 = pyInt (-b / (2 * a)) ∧
    |(focusFitStage results mn pm).1 - round (-b / (2 * a))| ≤ step ∧
    (focusFitStage resultsDown mnD pmD).1 = pmD := by
  have hfit := polyfit2_exact _ a b c hcurve hD
  have hstage : focusFitStage results mn pm =
      (pyInt (-b / (2 * a)), polyval2 a b c (-b / (2 * a))) := by
    simp only [focusFitStage, hfit, if_neg (not_le.mpr ha)]
  have hstageD : focusFitStage resultsDown mnD pmD = (pmD, mnD) := by
    simp only [focusFitStage, hfitD, if_pos haD]
  refine ⟨by rw [hstage], ?_, by rw [hstageD]⟩
  rw [hstage]
  exact le_trans (pyInt_round_dist _) hstep

/-- Samples on `y = x²` (a = 1 > 0). -/
def c7Samples : List (ℤ × ℕ × ℚ) := [(0, 1, 0), (1, 1, 1), (2, 1, 4)]

/-- Samples on `y = -x² + 4` (fitted leading coefficient -1 ≤ 0). -/
def c7SamplesDown : List (ℤ × ℕ × ℚ) := [(0, 1, 4), (1, 1, 3), (2, 1, 0)]

/-- Witness for C7: the hypotheses hold for the two concrete sample sets
and the theorem applies there. -/
theorem claim_C7_focus_fit_witness :
    (onCurve (c7Samples.map (fun r => ((r.1 : ℚ), r.2.2))) 1 0 0 ∧
      (0 : ℚ) < 1 ∧
      normalDet (c7Samples.map (fun r => ((r.1 : ℚ), r.2.2))) ≠ 0 ∧
      (1 : ℤ) ≤ 1 ∧
      polyfit2 (c7SamplesDown.map (fun r => ((r.1 : ℚ), r.2.2))) =
        some (-1, 0, 4) ∧
      (-1 : ℚ) ≤ 0) ∧
    ((focusFitStage c7Samples 100 0).1 = pyInt (-0 / (2 * 1)) ∧
      |(focusFitStage c7Samples 100 0).1 - round ((-0 : ℚ) / (2 * 1))| ≤ 1 ∧
      (focusFitStage c7SamplesDown 100 7).1 = 7) :=
  ⟨⟨by norm_num [onCurve, c7Samples],
     by norm_num,
     by norm_num [normalDet, det3, powSum, c7Samples],
     by norm_num,
     by norm_num [polyfit2, normalDet, det3, powSum, momSum, c7SamplesDown],
     by norm_num⟩,
    claim_C7_focus_fit c7Samples c7SamplesDown 1 0 0 (-1) 0 4 1 100 100 0 7
      (by norm_num [onCurve, c7Samples])
      (by norm_num)
      (by norm_num [normalDet, det3, powSum, c7Samples])
      (by norm_num)
      (by norm_num [polyfit2, normalDet, det3, powSum, momSum, c7SamplesDown])
      (by norm_num)⟩

/-- C8: when the FWHM measured at the pre-position
`focus_min − backlash` is strictly below the initial FWHM, `auto_focus`
aborts with the range-error return before any sweep write: the result is
the failure value, the whole event trace is the initial measurement and
the single move to (and measurement at) the pre-position, the only
focuser move is to the pre-position, and no sweep position is ever
commanded. -/
theorem claim_C8_range_abort (measure : ℤ → Option ℕ × Option ℚ)
    (initial_focus fmin fmax step backlash : ℤ) (f0 f1 : ℚ)
    (h0 : (measure initial_focus).2 = some f0)
    (h1 : (measure (fmin - backlash)).2 = some f1)
    (hlt : f1 < f0) (hbk : 0 < backlash) :
    (auto_focus measure initial_focus fmin fmax step backlash).2 = none ∧
    (auto_focus measure initial_focus fmin fmax step backlash).1 =
      [FEv.measure initial_focus, FEv.setFocus (fmin - backlash),
        FEv.measure (fmin - backlash)] ∧
    (∀ p, FEv.setFocus p ∈
        (auto_focus measure initial_focus fmin fmax step backlash).1 →
      p = fmin - backlash) ∧
    (∀ p, p ∈ focusTestPoints fmin fmax step →
      FEv.setFocus p ∉
        (auto_focus measure initial_focus fmin fmax step backlash).1) := by
  have hrun : auto_focus measure initial_focus fmin fmax step backlash =
      ([FEv.measure initial_focus, FEv.setFocus (fmin - backlash),
        FEv.measure (fmin - backlash)], none) := by
    unfold auto_focus
    rw [h0]
    simp only [h1]
    rw [if_pos (decide_eq_true hlt)]
  refine ⟨by rw [hrun], by rw [hrun], ?_, ?_⟩
  · intro p hp
    rw [hrun] at hp
    simpa using hp
  · intro p hpts hp
    rw [hrun] at hp
    have hge := focusTestPoints_ge fmin fmax step p hpts
    have : p = fmin - backlash := by simpa using hp
    omega

/-- Measurement oracle of the C8 witness: FWHM 2 at the pre-position 50,
FWHM 5 everywhere else. -/
def c8Measure : ℤ → Option ℕ × Option ℚ :=
  fun p => (some 10, if p = 50 then some 2 else some 5)

/-- Witness for C8: a sweep 100–300 step 50 with backlash 50, started at
position 200 with initial FWHM 5, sees FWHM 2 at the pre-position 50 and
aborts. -/
theorem claim_C8_range_abort_witness :
    ((c8Measure 200).2 = some 5 ∧ (c8Measure (100 - 50)).2 = some 2 ∧
      (2 : ℚ) < 5 ∧ (0 : ℤ) < 50) ∧
    ((auto_focus c8Measure 200 100 300 50 50).2 = none ∧
      (auto_focus c8Measure 200 100 300 50 50).1 =
        [FEv.measure 200, FEv.setFocus (100 - 50), FEv.measure (100 - 50)] ∧
      (∀ p, FEv.setFocus p ∈ (auto_focus c8Measure 200 100 300 50 50).1 →
        p = 100 - 50) ∧
      (∀ p, p ∈ focusTestPoints 100 300 50 →
        FEv.setFocus p ∉ (auto_focus c8Measure 200 100 300 50 50).1)) :=
  ⟨⟨by decide, by decide, by decide, by decide⟩,
    claim_C8_range_abort c8Measure 200 100 300 50 50 5 2
      (by decide) (by decide) (by decide) (by decide)⟩

/-- Measurement oracle of the C9 counterexample: valid samples at sweep
positions 0, 10 and 30 (three distinct positions, so the fit's normal
matrix is non-singular), zero stars with no FWHM at position 20, and
FWHM 8 everywhere else (in particular at the initial position and at the
backlash pre-position, so the run does not abort). -/
def c9Measure : ℤ → Option ℕ × Option ℚ :=
  fun p =>
    if p = 0 then (some 5, some 6)
    else if p = 10 then (some 5, some 3)
    else if p = 20 then (some 0, none)
    else if p = 30 then (some 5, some 7)
    else (some 5, some 8)

/-- C9 counterexample: in the sweep 0–30 step 10, position 20 is measured
(its measure event is in the trace) and returns a null FWHM, yet the
recorded sample list of the run is `[(0,5,6), (10,5,3), (30,5,7)]` — no
FocusSample is recorded for position 20, contradicting the claim that a
sample is recorded for every measured position even when the FWHM is
null.  The three recorded samples interpolate `x²/60 − 7x/15 + 6`
(a non-singular fit, leading coefficient 1/60 > 0), so the run completes
through the vertex branch, commanding and returning `int(14) = 14`. -/
theorem claim_C9_record_counterexample :
    (20 : ℤ) ∈ focusTestPoints 0 30 10 ∧
    FEv.measure 20 ∈ (auto_focus c9Measure 100 0 30 10 50).1 ∧
    c9Measure 20 = (some 0, none) ∧
    (auto_focus c9Measure 100 0 30 10 50).2 =
      some (14, 41 / 15, [(0, 5, 6), (10, 5, 3), (30, 5, 7)]) := by
  have hpts : focusTestPoints 0 30 10 = [0, 10, 20, 30] := by decide
  have hsweep : sweepRun c9Measure [0, 10, 20, 30] 0 =
      ⟨[(0, 5, 6), (10, 5, 3), (30, 5, 7)], 3, 10⟩ := by
    norm_num [sweepRun, sweepStep, c9Measure]
  have hfit2 : polyfit2 [((0 : ℚ), 6), ((10 : ℚ), 3), ((30 : ℚ), 7)] =
      some (1 / 60, -7 / 15, 6) :=
    polyfit2_exact _ (1 / 60) (-7 / 15) 6
      (by norm_num [onCurve])
      (by norm_num [normalDet, det3, powSum])
  have hfit : focusFitStage [(0, 5, 6), (10, 5, 3), (30, 5, 7)] 3 10 =
      (14, 41 / 15) := by
    have hmap : ([((0 : ℤ), (5 : ℕ), (6 : ℚ)), (10, 5, 3), (30, 5, 7)].map
        (fun r => ((r.1 : ℚ), r.2.2))) =
        [((0 : ℚ), 6), ((10 : ℚ), 3), ((30 : ℚ), 7)] := by
      norm_num
    simp only [focusFitStage, hmap, hfit2]
    rw [if_neg (by norm_num)]
    have hvertex : -(-7 / 15) / (2 * (1 / 60 : ℚ)) = 14 := by norm_num
    rw [hvertex]
    have hint : pyInt 14 = 14 := by
      unfold pyInt
      rw [if_neg (by norm_num)]
      rw [show (14 : ℚ) = ((14 : ℤ) : ℚ) by norm_num, Int.floor_intCast]
    rw [hint]
    norm_num [polyval2]
  refine ⟨by decide, by decide, by decide, ?_⟩
  have hrun := auto_focus_no_abort c9Measure 100 0 30 10 50 8 rfl
    (fun v hv => by
      have h8 : (c9Measure (0 - 50)).2 = some (8 : ℚ) := by decide
      rw [h8] at hv
      injection hv with hv8
      rw [← hv8]
      norm_num)
  rw [hrun]
  simp [hpts, hsweep, hfit]

/-- C9 (amended): during the sweep every test point is measured — a null
measurement is not fatal, the sweep continues — but a FocusSample is
recorded only when both the star count and the FWHM are non-null;
positions whose measurement has a null component are skipped entirely
(zero stars with a non-null FWHM are still recorded), so the quadratic
fit, which reads exactly the recorded samples, sees no null FWHM. -/
theorem claim_C9_recording_amended (measure : ℤ → Option ℕ × Option ℚ)
    (initial_focus fmin fmax step backlash : ℤ) (f0 : ℚ)
    (h0 : (measure initial_focus).2 = some f0)
    (hnb : ∀ v, (measure (fmin - backlash)).2 = some v → ¬ v < f0) :
    (sweepRun measure (focusTestPoints fmin fmax step) fmin).results =
      (focusTestPoints fmin fmax step).filterMap (fun f =>
        match measure f with
        | (some ns, some fw) => some (f, ns, fw)
        | _ => none) ∧
    (∀ f, f ∈ focusTestPoints fmin fmax step →
      FEv.measure f ∈ (auto_focus measure initial_focus fmin fmax step backlash).1) ∧
    (auto_focus measure initial_focus fmin fmax step backlash).2 =
      some ((focusFitStage
          (sweepRun measure (focusTestPoints fmin fmax step) fmin).results
          (sweepRun measure (focusTestPoints fmin fmax step) fmin).min_fwhm
          (sweepRun measure (focusTestPoints fmin fmax step) fmin).focus_at_min_fwhm).1,
        (focusFitStage
          (sweepRun measure (focusTestPoints fmin fmax step) fmin).results
          (sweepRun measure (focusTestPoints fmin fmax step) fmin).min_fwhm
          (sweepRun measure (focusTestPoints fmin fmax step) fmin).focus_at_min_fwhm).2,
        (sweepRun measure (focusTestPoints fmin fmax step) fmin).results) := by
  have hrun := auto_focus_no_abort measure initial_focus fmin fmax step backlash
    f0 h0 hnb
  refine ⟨sweepRun_results_aux measure (focusTestPoints fmin fmax step) _, ?_, ?_⟩
  · intro f hf
    rw [hrun]
    simp only [List.append_assoc, List.mem_append]
    refine Or.inr (Or.inl ?_)
    exact List.mem_flatMap.mpr ⟨f, hf, by simp⟩
  · rw [hrun]

/-- Witness for C9 (amended): the theorem applies to the counterexample's
oracle on the sweep 0–30 step 10 (three valid samples, a non-singular
fit), whose pre-position FWHM (8) is not below the initial FWHM (8). -/
theorem claim_C9_recording_amended_witness :
    ((c9Measure 100).2 = some 8 ∧
      (∀ v, (c9Measure (0 - 50)).2 = some v → ¬ v < 8)) ∧
    ((sweepRun c9Measure (focusTestPoints 0 30 10) 0).results =
      (focusTestPoints 0 30 10).filterMap (fun f =>
        match c9Measure f with
        | (some ns, some fw) => some (f, ns, fw)
        | _ => none) ∧
    (∀ f, f ∈ focusTestPoints 0 30 10 →
      FEv.measure f ∈ (auto_focus c9Measure 100 0 30 10 50).1) ∧
    (auto_focus c9Measure 100 0 30 10 50).2 =
      some ((focusFitStage
          (sweepRun c9Measure (focusTestPoints 0 30 10) 0).results
          (sweepRun c9Measure (focusTestPoints 0 30 10) 0).min_fwhm
          (sweepRun c9Measure (focusTestPoints 0 30 10) 0).focus_at_min_fwhm).1,
        (focusFitStage
          (sweepRun c9Measure (focusTestPoints 0 30 10) 0).results
          (sweepRun c9Measure (focusTestPoints 0 30 10) 0).min_fwhm
          (sweepRun c9Measure (focusTestPoints 0 30 10) 0).focus_at_min_fwhm).2,
        (sweepRun c9Measure (focusTestPoints 0 30 10) 0).results)) :=
  ⟨⟨rfl, fun v hv => by
      have h8 : (c9Measure (0 - 50)).2 = some (8 : ℚ) := by decide
      rw [h8] at hv
      injection hv with hv8
      rw [← hv8]
      norm_num⟩,
    claim_C9_recording_amended c9Measure 100 0 30 10 50 8 rfl
      (fun v hv => by
        have h8 : (c9Measure (0 - 50)).2 = some (8 : ℚ) := by decide
        rw [h8] at hv
        injection hv with hv8
        rw [← hv8]
        norm_num)⟩

end SkyScripter
